import Mathlib

/-!
# Verification of `fallback-chain-js`

Shallow embedding of the core `fallback` orchestrator of the package
`@khalidsaidi/fallback-chain-js` (source: the TypeScript module shipped in
`src/packages/fallback-chain-js/README.md`, second document: `index.ts`).

Modelling decisions, all taken from the source:

* A JS error value is modelled by `JsErr`: the `TimeoutError` class instances
  (constructor `timeout`, carrying `timeoutMs`), the synthetic
  `UnacceptableResultError` produced on an unacceptable value (constructor
  `unacceptable`, carrying the rejected value), and every other thrown object
  (constructor `thrown`, carrying its `name` property and an identifying
  payload).  `isAbortLike` inspects the `name` property exactly as the source
  does; a thrown primitive behaves like a `thrown` value whose name is not
  `"AbortError"`.
* A candidate is a bare function or a `{name?, run?}` object; a `run` field
  may be absent (the invalid shape `42` / `{}` / `{name}`), in which case
  invoking `run(ctx)` throws a synchronous `TypeError`, caught by the
  attempt's `try` block.  (A `null` candidate, which would throw inside
  `normalizeCandidate` itself, is outside the model.)
* One attempt races the candidate's settlement (after `duration`
  milliseconds, with a fixed resolve/reject result) against the armed
  per-attempt timer: the timer wins exactly when its delay is strictly
  smaller than the candidate's settle time, in which case it aborts the
  attempt's `AbortController` and rejects with `TimeoutError(timeoutMs)`.
* The external `AbortSignal` is a schedule: possibly aborted before the
  invocation (`aborted0`, with an optional `reason`), and possibly firing
  during attempt `i` before it settles (`firesDuring i`).  Once fired it
  stays aborted, which the loop threads as the `fired` flag.
* The `onAttempt` hook is modelled as a pure observer: `fallback` returns,
  next to its result, the ordered list of the `AttemptInfo` records passed to
  the hook (one per executed attempt, exactly as the source builds them).
-/

namespace FallbackChain

/-- A JS error value, as far as `fallback`'s classification inspects it. -/
inductive JsErr (T : Type) where
  /-- an instance of the library's `TimeoutError` class (`name = "TimeoutError"`,
  field `timeoutMs`). -/
  | timeout (timeoutMs : Int) : JsErr T
  /-- the synthetic `Object.assign(new Error("Unacceptable result"),
  {name: "UnacceptableResultError", value})`. -/
  | unacceptable (value : T) : JsErr T
  /-- any other thrown value: its `name` property and an identifying payload. -/
  | thrown (name : String) (data : Int) : JsErr T
deriving DecidableEq, Repr

/-- `err instanceof TimeoutError`. -/
def JsErr.isTimeoutInstance {T : Type} : JsErr T → Bool
  | .timeout _ => true
  | _ => false

/-- Source `isAbortLike`: the value is an object whose `name` property is
`"AbortError"`. -/
def isAbortLike {T : Type} : JsErr T → Bool
  | .thrown n _ => n == "AbortError"
  | _ => false

/-- How one candidate's `run` promise settles. -/
inductive RunResult (T : Type) where
  | resolves (v : T) : RunResult T
  | rejects (e : JsErr T) : RunResult T
deriving DecidableEq, Repr

/-- The behaviour of a candidate's `run` function for the one attempt in which
it is invoked: its promise settles after `duration` ms with `result`. -/
structure CandBehavior (T : Type) where
  duration : Nat
  result : RunResult T
deriving DecidableEq, Repr

/-- Source `Candidate<T>`: a bare function, or an object carrying an optional
`name` and a `run` field; `run := none` models the invalid shape whose `run`
property is `undefined` (not a function and no `run` field). -/
inductive Candidate (T : Type) where
  | fn (run : CandBehavior T) : Candidate T
  | obj (name : Option String) (run : Option (CandBehavior T)) : Candidate T

/-- Source `normalizeCandidate`: a function becomes `{run}`; an object keeps
its `name` only when it is defined. -/
def normalizeCandidate {T : Type} : Candidate T → Option String × Option (CandBehavior T)
  | .fn run => (none, some run)
  | .obj name run => match name with
    | none => (none, run)
    | some n => (some n, run)

/-- The candidate's reported name after normalization. -/
def candName {T : Type} (c : Candidate T) : Option String :=
  (normalizeCandidate c).1

/-- The behaviour of `run(ctx)` for a normalized candidate: an absent `run`
(invalid shape) throws a synchronous `TypeError` ("run is not a function"). -/
def effBehavior {T : Type} (c : Candidate T) : CandBehavior T :=
  match (normalizeCandidate c).2 with
  | some b => b
  | none => ⟨0, .rejects (.thrown "TypeError" 0)⟩

/-- A JS number as it matters to `timeoutMs`: finite, or NaN/±Infinity. -/
inductive JsNumber where
  | num (n : Int) : JsNumber
  | nan : JsNumber
  | infinity : JsNumber
  | negInfinity : JsNumber
deriving DecidableEq, Repr

/-- Source `FallbackOptions.timeoutMs`: absent, a fixed number, or a function
of the attempt index (returning a number or `undefined`). -/
inductive TimeoutSpec where
  | undef : TimeoutSpec
  | fixed (n : JsNumber) : TimeoutSpec
  | func (f : Nat → Option JsNumber) : TimeoutSpec

/-- Source `getTimeoutMs`: apply the per-attempt function, else return the
fixed value (or `undefined`). -/
def getTimeoutMs : TimeoutSpec → Nat → Option JsNumber
  | .undef, _ => none
  | .fixed n, _ => some n
  | .func f, i => f i

/-- The timer-arming guard of the source: the timer is armed iff the resolved
timeout is a number, `Number.isFinite`, and `>= 0`. -/
def armedFromNumber : Option JsNumber → Option Int
  | some (.num n) => if 0 ≤ n then some n else none
  | _ => none

/-- The external `AbortSignal`, as a schedule of abort events. -/
structure AbortSignalModel (T : Type) where
  /-- the signal is already aborted before `fallback` starts. -/
  aborted0 : Bool
  /-- `signal.reason` (absent models a nullish reason). -/
  reason : Option (JsErr T)
  /-- the signal fires during attempt `i`, before that attempt settles. -/
  firesDuring : Nat → Bool

/-- Source `FallbackOptions` (minus the pure-observer `onAttempt` hook, whose
call records `fallback` returns as a trace). -/
structure FallbackOptions (T : Type) where
  signal : Option (AbortSignalModel T)
  timeoutMs : TimeoutSpec
  accept : Option (T → Nat → Bool)
  retryable : Option (JsErr T → Nat → Bool)

/-- `options = {}`. -/
def defaultOptions {T : Type} : FallbackOptions T := ⟨none, .undef, none, none⟩

/-- The default `retryable`: every error is retryable except abort-like ones. -/
def defaultRetryable {T : Type} (e : JsErr T) (_ : Nat) : Bool :=
  !isAbortLike e

/-- The effective `accept` predicate (default: always true). -/
def effAccept {T : Type} (opts : FallbackOptions T) : T → Nat → Bool :=
  opts.accept.getD fun _ _ => true

/-- The effective `retryable` predicate (default: `defaultRetryable`). -/
def effRetryable {T : Type} (opts : FallbackOptions T) : JsErr T → Nat → Bool :=
  opts.retryable.getD defaultRetryable

/-- The armed per-attempt timer delay for attempt `i`, if any. -/
def armedTimeout {T : Type} (opts : FallbackOptions T) (i : Nat) : Option Int :=
  armedFromNumber (getTimeoutMs opts.timeoutMs i)

/-- Per-attempt outcome classification labels (source `info.outcome`). -/
inductive Outcome where
  | success : Outcome
  | rejected : Outcome
  | unacceptable : Outcome
  | timeout : Outcome
  | aborted : Outcome
deriving DecidableEq, Repr

/-- The record passed to `onAttempt` for one attempt. -/
structure AttemptInfo (T : Type) where
  attempt : Nat
  name : Option String
  outcome : Outcome
  durationMs : Nat
  value : Option T
  error : Option (JsErr T)
deriving DecidableEq, Repr

/-- How the `Promise.race` of one attempt settles. -/
structure RaceOutcome (T : Type) where
  /-- the value or error the race settles with. -/
  settled : RunResult T
  /-- `Date.now() - started` when the race settles. -/
  elapsed : Nat
  /-- the timer fired (and aborted the attempt's controller). -/
  timerFired : Bool
deriving DecidableEq, Repr

/-- The race between the candidate's settlement and the armed timer: the timer
wins exactly when its delay is strictly below the candidate's settle time; on
expiry it aborts the attempt's controller and rejects with
`TimeoutError(timeoutMs)`. -/
def raceAttempt {T : Type} (b : CandBehavior T) (armed : Option Int) : RaceOutcome T :=
  match armed with
  | some n =>
    if n < (b.duration : Int) then ⟨.rejects (.timeout n), n.toNat, true⟩
    else ⟨b.result, b.duration, false⟩
  | none => ⟨b.result, b.duration, false⟩

/-- The race outcome of attempt `i` running candidate `c`. -/
def raceOf {T : Type} (opts : FallbackOptions T) (c : Candidate T) (i : Nat) : RaceOutcome T :=
  raceAttempt (effBehavior c) (armedTimeout opts i)

/-- Whether the external signal has aborted by the time attempt `i`'s race
settles: it was aborted before the invocation, or fired during an earlier
attempt (`fired`), or fires during attempt `i`. -/
def extAbortedAt {T : Type} (opts : FallbackOptions T) (i : Nat) (fired : Bool) : Bool :=
  match opts.signal with
  | some s => s.aborted0 || fired || s.firesDuring i
  | none => false

/-- Threading of the `fired` flag to the next attempt. -/
def nextFired {T : Type} (opts : FallbackOptions T) (i : Nat) (fired : Bool) : Bool :=
  match opts.signal with
  | some s => fired || s.firesDuring i
  | none => fired

/-- `controller.signal.aborted` of attempt `i` at classification time: set by
the timer or by the external signal. -/
def attemptCtrlAborted {T : Type} (opts : FallbackOptions T) (c : Candidate T)
    (i : Nat) (fired : Bool) : Bool :=
  (raceOf opts c i).timerFired || extAbortedAt opts i fired

/-- Source outcome classification of a caught error:
`err instanceof TimeoutError ? "timeout" : isAbortLike(err) ||
controller.signal.aborted ? "aborted" : "rejected"`. -/
def classify {T : Type} (e : JsErr T) (ctrlAborted : Bool) : Outcome :=
  if e.isTimeoutInstance then .timeout
  else if isAbortLike e || ctrlAborted then .aborted
  else .rejected

/-- The `onAttempt` record of attempt `i` when the race settles with error `e`. -/
def errInfo {T : Type} (opts : FallbackOptions T) (c : Candidate T) (i : Nat)
    (fired : Bool) (e : JsErr T) : AttemptInfo T :=
  ⟨i, candName c, classify e (attemptCtrlAborted opts c i fired),
    (raceOf opts c i).elapsed, none, some e⟩

/-- The `onAttempt` record of attempt `i` when the race settles with value `v`
(outcome `success` or `unacceptable`; the source omits the error field on the
unacceptable path). -/
def valInfo {T : Type} (opts : FallbackOptions T) (c : Candidate T) (i : Nat)
    (o : Outcome) (v : T) : AttemptInfo T :=
  ⟨i, candName c, o, (raceOf opts c i).elapsed, some v, none⟩

/-- How the candidate loop ends. -/
inductive LoopEnd (T : Type) where
  /-- an accepted value is returned. -/
  | success (v : T) : LoopEnd T
  /-- an error is thrown unwrapped (aborted or non-retryable). -/
  | thrown (e : JsErr T) : LoopEnd T
  /-- the list is exhausted; `errs` is the accumulated error sequence. -/
  | exhausted (errs : List (JsErr T)) : LoopEnd T
deriving DecidableEq, Repr

/-- The source's `for` loop over the candidates, from attempt `i` on, with the
accumulated error sequence `errs` and the external-signal `fired` flag.
Returns how the loop ends together with the ordered `onAttempt` records. -/
def runChain {T : Type} (opts : FallbackOptions T) :
    List (Candidate T) → Nat → List (JsErr T) → Bool →
    LoopEnd T × List (AttemptInfo T)
  | [], _, errs, _ => (.exhausted errs, [])
  | c :: rest, i, errs, fired =>
    match (raceOf opts c i).settled with
    | .resolves v =>
      if effAccept opts v i then
        (.success v, [valInfo opts c i .success v])
      else
        let next := runChain opts rest (i + 1)
          (errs ++ [JsErr.unacceptable v]) (nextFired opts i fired)
        (next.1, valInfo opts c i .unacceptable v :: next.2)
    | .rejects e =>
      if classify e (attemptCtrlAborted opts c i fired) = .aborted then
        (.thrown e, [errInfo opts c i fired e])
      else if effRetryable opts e i = false then
        (.thrown e, [errInfo opts c i fired e])
      else
        let next := runChain opts rest (i + 1)
          (errs ++ [e]) (nextFired opts i fired)
        (next.1, errInfo opts c i fired e :: next.2)

/-- The source's `FallbackError` object: message, the error sequence, and the
best-effort `cause` set by its constructor. -/
structure FallbackError (T : Type) where
  message : String
  errors : List (JsErr T)
  cause : Option (JsErr T)
deriving DecidableEq, Repr

/-- The `FallbackError` constructor: `this.cause = errors[errors.length - 1]`. -/
def mkFallbackError {T : Type} (message : String) (errors : List (JsErr T)) :
    FallbackError T :=
  ⟨message, errors, errors.getLast?⟩

/-- What an invocation of `fallback` settles with, seen by the caller. -/
inductive FallbackResult (T : Type) where
  /-- the promise resolves with a value. -/
  | ok (v : T) : FallbackResult T
  /-- the promise rejects with an error propagated unmodified. -/
  | err (e : JsErr T) : FallbackResult T
  /-- the promise rejects with an aggregate `FallbackError`. -/
  | aggregate (e : FallbackError T) : FallbackResult T
  /-- the promise rejects with the boundary `TypeError` (bad candidates arg). -/
  | argError (msg : String) : FallbackResult T
deriving DecidableEq, Repr

/-- Wrap the loop's end into the caller-visible result: exhaustion throws
`new FallbackError("All " + n + " fallback candidates failed", errors)`. -/
def finishChain {T : Type} (n : Nat) :
    LoopEnd T × List (AttemptInfo T) → FallbackResult T × List (AttemptInfo T)
  | (.success v, tr) => (.ok v, tr)
  | (.thrown e, tr) => (.err e, tr)
  | (.exhausted errs, tr) =>
    (.aggregate (mkFallbackError
      ("All " ++ toString n ++ " fallback candidates failed") errs), tr)

/-- `options.signal?.aborted` at entry. -/
def signalPreAborted {T : Type} (opts : FallbackOptions T) : Bool :=
  match opts.signal with
  | some s => s.aborted0
  | none => false

/-- The error thrown on a pre-aborted signal:
`signal.reason ?? Object.assign(new Error("Aborted"), {name: "AbortError"})`. -/
def preAbortReason {T : Type} (opts : FallbackOptions T) : JsErr T :=
  match opts.signal with
  | some s => s.reason.getD (.thrown "AbortError" 0)
  | none => .thrown "AbortError" 0

/-- Source `fallback`: boundary check of the candidates argument, pre-aborted
signal check, then the candidate loop.  Returns the caller-visible result and
the ordered list of `onAttempt` records. -/
def fallback {T : Type} (cands : List (Candidate T)) (opts : FallbackOptions T) :
    FallbackResult T × List (AttemptInfo T) :=
  if cands.isEmpty then
    (.argError "fallback(candidates): candidates must be a non-empty array", [])
  else if signalPreAborted opts then
    (.err (preAbortReason opts), [])
  else
    finishChain cands.length (runChain opts cands 0 [] false)

/-- The error an attempt contributes to the aggregate sequence, recovered from
its `onAttempt` record: the caught error, or the synthetic unacceptable-result
error built from the rejected value. -/
def attemptRecordedError {T : Type} (info : AttemptInfo T) : JsErr T :=
  match info.error with
  | some e => e
  | none => match info.value with
    | some v => .unacceptable v
    | none => .thrown "" 0

/-- An attempt record whose classification lets the loop continue: it is
unacceptable, or rejected with a retryable error. -/
def continuableInfo {T : Type} (opts : FallbackOptions T) (info : AttemptInfo T) : Prop :=
  info.outcome = .unacceptable ∨
    (info.outcome = .rejected ∧
      ∀ e, info.error = some e → effRetryable opts e info.attempt = true)

section StepLemmas

variable {T : Type} (opts : FallbackOptions T)

theorem runChain_nil (i : Nat) (errs : List (JsErr T)) (fired : Bool) :
    runChain opts [] i errs fired = (.exhausted errs, []) := rfl

theorem runChain_cons_success (c : Candidate T) (rest : List (Candidate T))
    (i : Nat) (errs : List (JsErr T)) (fired : Bool) {v : T}
    (hs : (raceOf opts c i).settled = .resolves v)
    (ha : effAccept opts v i = true) :
    runChain opts (c :: rest) i errs fired =
      (.success v, [valInfo opts c i .success v]) := by
  simp only [runChain, hs, ha, if_true]

theorem runChain_cons_unacceptable (c : Candidate T) (rest : List (Candidate T))
    (i : Nat) (errs : List (JsErr T)) (fired : Bool) {v : T}
    (hs : (raceOf opts c i).settled = .resolves v)
    (ha : effAccept opts v i = false) :
    runChain opts (c :: rest) i errs fired =
      ((runChain opts rest (i + 1) (errs ++ [JsErr.unacceptable v])
          (nextFired opts i fired)).1,
        valInfo opts c i .unacceptable v ::
          (runChain opts rest (i + 1) (errs ++ [JsErr.unacceptable v])
            (nextFired opts i fired)).2) := by
  simp only [runChain, hs, ha, Bool.false_eq_true, if_false]

theorem runChain_cons_aborted (c : Candidate T) (rest : List (Candidate T))
    (i : Nat) (errs : List (JsErr T)) (fired : Bool) {e : JsErr T}
    (hs : (raceOf opts c i).settled = .rejects e)
    (hc : classify e (attemptCtrlAborted opts c i fired) = .aborted) :
    runChain opts (c :: rest) i errs fired =
      (.thrown e, [errInfo opts c i fired e]) := by
  simp only [runChain, hs, hc, if_true]

theorem runChain_cons_nonretryable (c : Candidate T) (rest : List (Candidate T))
    (i : Nat) (errs : List (JsErr T)) (fired : Bool) {e : JsErr T}
    (hs : (raceOf opts c i).settled = .rejects e)
    (hc : classify e (attemptCtrlAborted opts c i fired) ≠ .aborted)
    (hr : effRetryable opts e i = false) :
    runChain opts (c :: rest) i errs fired =
      (.thrown e, [errInfo opts c i fired e]) := by
  simp only [runChain, hs, hc, hr, if_false, if_true]

theorem runChain_cons_retry (c : Candidate T) (rest : List (Candidate T))
    (i : Nat) (errs : List (JsErr T)) (fired : Bool) {e : JsErr T}
    (hs : (raceOf opts c i).settled = .rejects e)
    (hc : classify e (attemptCtrlAborted opts c i fired) ≠ .aborted)
    (hr : effRetryable opts e i = true) :
    runChain opts (c :: rest) i errs fired =
      ((runChain opts rest (i + 1) (errs ++ [e]) (nextFired opts i fired)).1,
        errInfo opts c i fired e ::
          (runChain opts rest (i + 1) (errs ++ [e]) (nextFired opts i fired)).2) := by
  simp only [runChain, hs, hc, hr, if_false, Bool.true_eq_false]

end StepLemmas

section StructuralLemmas

variable {T : Type} (opts : FallbackOptions T)

theorem classify_cases (e : JsErr T) (b : Bool) :
    classify e b = .timeout ∨ classify e b = .aborted ∨ classify e b = .rejected := by
  unfold classify
  split
  · exact Or.inl rfl
  · split
    · exact Or.inr (Or.inl rfl)
    · exact Or.inr (Or.inr rfl)

theorem valInfo_attempt (c : Candidate T) (i : Nat) (o : Outcome) (v : T) :
    (valInfo opts c i o v).attempt = i := rfl

theorem errInfo_attempt (c : Candidate T) (i : Nat) (fired : Bool) (e : JsErr T) :
    (errInfo opts c i fired e).attempt = i := rfl

/-- The trace holds exactly one record per executed attempt, carrying
consecutive attempt indices starting at `i`, and never more records than
remaining candidates. -/
theorem runChain_trace_attempts :
    ∀ (l : List (Candidate T)) (i : Nat) (errs : List (JsErr T)) (fired : Bool),
      ((runChain opts l i errs fired).2).map (·.attempt) =
        List.range' i ((runChain opts l i errs fired).2).length ∧
      ((runChain opts l i errs fired).2).length ≤ l.length := by
  intro l
  induction l with
  | nil => intro i errs fired; simp [runChain_nil]
  | cons c rest ih =>
    intro i errs fired
    rcases hs : (raceOf opts c i).settled with v | e
    · by_cases ha : effAccept opts v i = true
      · rw [runChain_cons_success opts c rest i errs fired hs ha]
        simp [valInfo, List.range'_succ]
      · rw [runChain_cons_unacceptable opts c rest i errs fired hs
          (Bool.not_eq_true _ ▸ ha)]
        have := ih (i + 1) (errs ++ [JsErr.unacceptable v]) (nextFired opts i fired)
        simp only [List.map_cons, List.length_cons, valInfo]
        constructor
        · rw [List.range'_succ, this.1]
        · exact Nat.succ_le_succ this.2
    · by_cases hc : classify e (attemptCtrlAborted opts c i fired) = .aborted
      · rw [runChain_cons_aborted opts c rest i errs fired hs hc]
        simp [errInfo, List.range'_succ]
      · by_cases hr : effRetryable opts e i = true
        · rw [runChain_cons_retry opts c rest i errs fired hs hc hr]
          have := ih (i + 1) (errs ++ [e]) (nextFired opts i fired)
          simp only [List.map_cons, List.length_cons, errInfo]
          constructor
          · rw [List.range'_succ, this.1]
          · exact Nat.succ_le_succ this.2
        · rw [runChain_cons_nonretryable opts c rest i errs fired hs hc
            (Bool.not_eq_true _ ▸ hr)]
          simp [errInfo, List.range'_succ]

/-- Exhaustion inversion: when the loop ends with the candidates exhausted,
the accumulated error sequence extends the incoming one by exactly the
per-attempt recorded errors, one per candidate, and every attempt in the
trace was classified `unacceptable`, `rejected` or `timeout`. -/
theorem runChain_exhausted_inv :
    ∀ (l : List (Candidate T)) (i : Nat) (errs : List (JsErr T)) (fired : Bool)
      (E : List (JsErr T)) (tr : List (AttemptInfo T)),
      runChain opts l i errs fired = (.exhausted E, tr) →
      E = errs ++ tr.map attemptRecordedError ∧ tr.length = l.length ∧
        ∀ info ∈ tr, info.outcome = .unacceptable ∨ info.outcome = .rejected ∨
          info.outcome = .timeout := by
  intro l
  induction l with
  | nil =>
    intro i errs fired E tr h
    rw [runChain_nil] at h
    obtain ⟨hE, htr⟩ := Prod.mk.injEq .. ▸ h
    cases (LoopEnd.exhausted.injEq .. ▸ hE.symm)
    subst htr
    simp
  | cons c rest ih =>
    intro i errs fired E tr h
    rcases hs : (raceOf opts c i).settled with v | e
    · by_cases ha : effAccept opts v i = true
      · rw [runChain_cons_success opts c rest i errs fired hs ha] at h
        exact absurd (congrArg Prod.fst h) (by simp)
      · rw [runChain_cons_unacceptable opts c rest i errs fired hs
          (Bool.not_eq_true _ ▸ ha)] at h
        rcases hrec : runChain opts rest (i + 1) (errs ++ [JsErr.unacceptable v])
          (nextFired opts i fired) with ⟨endR, tr'⟩
        rw [hrec] at h
        obtain ⟨h1, h2⟩ := Prod.mk.injEq .. ▸ h
        subst h1; subst h2
        obtain ⟨hE, hlen, hout⟩ := ih (i + 1) (errs ++ [JsErr.unacceptable v])
          (nextFired opts i fired) E tr' hrec
        refine ⟨?_, by simp [hlen], ?_⟩
        · simp only [hE, List.map_cons, List.append_assoc]
          rfl
        · intro info hinfo
          rcases List.mem_cons.mp hinfo with h' | h'
          · subst h'; exact Or.inl rfl
          · exact hout info h'
    · by_cases hc : classify e (attemptCtrlAborted opts c i fired) = .aborted
      · rw [runChain_cons_aborted opts c rest i errs fired hs hc] at h
        exact absurd (congrArg Prod.fst h) (by simp)
      · by_cases hr : effRetryable opts e i = true
        · rw [runChain_cons_retry opts c rest i errs fired hs hc hr] at h
          rcases hrec : runChain opts rest (i + 1) (errs ++ [e])
            (nextFired opts i fired) with ⟨endR, tr'⟩
          rw [hrec] at h
          obtain ⟨h1, h2⟩ := Prod.mk.injEq .. ▸ h
          subst h1; subst h2
          obtain ⟨hE, hlen, hout⟩ := ih (i + 1) (errs ++ [e])
            (nextFired opts i fired) E tr' hrec
          refine ⟨?_, by simp [hlen], ?_⟩
          · simp only [hE, List.map_cons, List.append_assoc]
            rfl
          · intro info hinfo
            rcases List.mem_cons.mp hinfo with h' | h'
            · subst h'
              rcases classify_cases (T := T) e (attemptCtrlAborted opts c i fired)
                with h'' | h'' | h''
              · exact Or.inr (Or.inr h'')
              · exact absurd h'' hc
              · exact Or.inr (Or.inl h'')
            · exact hout info h'
        · rw [runChain_cons_nonretryable opts c rest i errs fired hs hc
            (Bool.not_eq_true _ ▸ hr)] at h
          exact absurd (congrArg Prod.fst h) (by simp)

/-- If every record in the trace is continuable (unacceptable, or rejected
with a retryable error), the loop exhausts the whole candidate list and
accumulates exactly one error per candidate. -/
theorem runChain_all_continuable :
    ∀ (l : List (Candidate T)) (i : Nat) (errs : List (JsErr T)) (fired : Bool),
      (∀ info ∈ (runChain opts l i errs fired).2, continuableInfo opts info) →
      ∃ tr, runChain opts l i errs fired =
          (.exhausted (errs ++ tr.map attemptRecordedError), tr) ∧
        tr.length = l.length := by
  intro l
  induction l with
  | nil =>
    intro i errs fired _
    exact ⟨[], by simp [runChain_nil], rfl⟩
  | cons c rest ih =>
    intro i errs fired hgood
    rcases hs : (raceOf opts c i).settled with v | e
    · by_cases ha : effAccept opts v i = true
      · rw [runChain_cons_success opts c rest i errs fired hs ha] at hgood
        have := hgood (valInfo opts c i .success v) (by simp)
        rcases this with h' | ⟨h', _⟩ <;> simp [valInfo] at h'
      · have hstep := runChain_cons_unacceptable opts c rest i errs fired hs
          (Bool.not_eq_true _ ▸ ha)
        rw [hstep] at hgood ⊢
        have hgood' : ∀ info ∈ (runChain opts rest (i + 1)
            (errs ++ [JsErr.unacceptable v]) (nextFired opts i fired)).2,
            continuableInfo opts info := by
          intro info hinfo
          exact hgood info (by simp [hinfo])
        obtain ⟨tr', hrec, hlen⟩ := ih (i + 1) (errs ++ [JsErr.unacceptable v])
          (nextFired opts i fired) hgood'
        refine ⟨valInfo opts c i .unacceptable v :: tr', ?_, by simp [hlen]⟩
        rw [hrec]
        simp only [List.map_cons, List.append_assoc, Prod.mk.injEq]
        exact ⟨rfl, trivial⟩
    · by_cases hc : classify e (attemptCtrlAborted opts c i fired) = .aborted
      · rw [runChain_cons_aborted opts c rest i errs fired hs hc] at hgood
        have := hgood (errInfo opts c i fired e) (by simp)
        rcases this with h' | ⟨h', _⟩ <;>
          simp only [errInfo, hc] at h' <;> exact absurd h' (by simp)
      · by_cases hr : effRetryable opts e i = true
        · have hstep := runChain_cons_retry opts c rest i errs fired hs hc hr
          rw [hstep] at hgood ⊢
          have hhead := hgood (errInfo opts c i fired e) (by simp)
          have hgood' : ∀ info ∈ (runChain opts rest (i + 1)
              (errs ++ [e]) (nextFired opts i fired)).2,
              continuableInfo opts info := by
            intro info hinfo
            exact hgood info (by simp [hinfo])
          obtain ⟨tr', hrec, hlen⟩ := ih (i + 1) (errs ++ [e])
            (nextFired opts i fired) hgood'
          refine ⟨errInfo opts c i fired e :: tr', ?_, by simp [hlen]⟩
          rw [hrec]
          simp only [List.map_cons, List.append_assoc, Prod.mk.injEq]
          exact ⟨rfl, trivial⟩
        · rw [runChain_cons_nonretryable opts c rest i errs fired hs hc
            (Bool.not_eq_true _ ▸ hr)] at hgood
          have := hgood (errInfo opts c i fired e) (by simp)
          rcases this with h' | ⟨h', hretry⟩
          · rcases classify_cases (T := T) e (attemptCtrlAborted opts c i fired)
              with h'' | h'' | h'' <;>
              simp only [errInfo, h''] at h' <;> first | exact absurd h'' hc | exact absurd h' (by simp)
          · have := hretry e rfl
            simp only [errInfo] at this
            rw [this] at hr
            exact absurd rfl hr

/-- `fallback` with a valid candidate list and a quiet entry signal is the
wrapped loop. -/
theorem fallback_run (cands : List (Candidate T)) (opts : FallbackOptions T)
    (h1 : cands ≠ []) (h2 : signalPreAborted opts = false) :
    fallback cands opts = finishChain cands.length (runChain opts cands 0 [] false) := by
  simp [fallback, List.isEmpty_iff, h1, h2]

theorem finishChain_snd (n : Nat) (p : LoopEnd T × List (AttemptInfo T)) :
    (finishChain n p).2 = p.2 := by
  rcases p with ⟨e, tr⟩
  cases e <;> rfl

theorem armedFromNumber_nonneg (x : Option JsNumber) (n : Int)
    (h : armedFromNumber x = some n) : 0 ≤ n := by
  rcases x with _ | x
  · simp [armedFromNumber] at h
  · rcases x with m | _ | _ | _ <;> simp [armedFromNumber] at h
    rcases h with ⟨h0, hm⟩
    omega

theorem raceAttempt_timerFired_settled (b : CandBehavior T) (a : Option Int)
    (h : (raceAttempt b a).timerFired = true) :
    ∃ n, (raceAttempt b a).settled = .rejects (.timeout n) := by
  cases a with
  | none => simp [raceAttempt] at h
  | some n =>
    by_cases hlt : n < (b.duration : Int)
    · exact ⟨n, by simp [raceAttempt, hlt]⟩
    · simp [raceAttempt, hlt] at h

theorem race_rejects_nontimeout_timerFired (b : CandBehavior T) (a : Option Int)
    (e : JsErr T) (hs : (raceAttempt b a).settled = .rejects e)
    (ht : e.isTimeoutInstance = false) :
    (raceAttempt b a).timerFired = false := by
  by_contra h
  rw [Bool.not_eq_false] at h
  obtain ⟨n, hn⟩ := raceAttempt_timerFired_settled b a h
  rw [hs] at hn
  cases RunResult.rejects.injEq .. ▸ hn
  simp [JsErr.isTimeoutInstance] at ht

theorem classify_aborted_inv (e : JsErr T) (b : Bool)
    (h : classify e b = .aborted) :
    e.isTimeoutInstance = false ∧ (isAbortLike e || b) = true := by
  unfold classify at h
  by_cases h1 : e.isTimeoutInstance = true
  · simp [h1] at h
  · rw [Bool.not_eq_true] at h1
    refine ⟨h1, ?_⟩
    by_cases h2 : (isAbortLike e || b) = true
    · exact h2
    · rw [Bool.not_eq_true] at h2
      simp [h1, h2] at h

end StructuralLemmas

section Claims

open Candidate

/-- Claim C1: for an invocation with a non-empty candidate list (and a
cancellation token not already aborted) whose first attempt settles with a
resolved value that the effective accept predicate (default: always true)
accepts, `fallback` returns exactly that value, and the trace holds the single
successful attempt record — no later candidate's run function is invoked. -/
theorem fallback_first_acceptable_wins {T : Type} (c : Candidate T)
    (rest : List (Candidate T)) (opts : FallbackOptions T) (v : T)
    (hsig : signalPreAborted opts = false)
    (hs : (raceOf opts c 0).settled = .resolves v)
    (ha : effAccept opts v 0 = true) :
    fallback (c :: rest) opts = (.ok v, [valInfo opts c 0 .success v]) := by
  rw [fallback_run (c :: rest) opts (by simp) hsig,
    runChain_cons_success opts c rest 0 [] false hs ha]
  rfl

theorem fallback_first_acceptable_wins_witness :
    fallback [Candidate.fn ⟨0, .resolves (5 : Nat)⟩, Candidate.fn ⟨0, .resolves 6⟩]
      defaultOptions =
      (.ok 5, [⟨0, none, .success, 0, some 5, none⟩]) :=
  fallback_first_acceptable_wins (Candidate.fn ⟨0, .resolves 5⟩)
    [Candidate.fn ⟨0, .resolves 6⟩] defaultOptions 5 rfl rfl rfl

/-- Claim C2: for an invocation (non-empty candidates, token not pre-aborted)
in which every attempt's record is continuable — classified `unacceptable`, or
`rejected` with a retryable error (in particular when `accept` rejects every
candidate's resolved value) — `fallback` throws a `FallbackError` whose error
sequence holds exactly one error per candidate, in attempt order (the trace's
attempt indices are `0, 1, ...`), and whose message carries the total count of
candidates attempted. -/
theorem fallback_exhaustion_aggregate {T : Type} (cands : List (Candidate T))
    (opts : FallbackOptions T)
    (hne : cands ≠ []) (hsig : signalPreAborted opts = false)
    (hgood : ∀ info ∈ (fallback cands opts).2, continuableInfo opts info) :
    ∃ tr, fallback cands opts =
        (.aggregate (mkFallbackError
          ("All " ++ toString cands.length ++ " fallback candidates failed")
          (tr.map attemptRecordedError)), tr) ∧
      tr.length = cands.length ∧
      (tr.map attemptRecordedError).length = cands.length ∧
      tr.map (·.attempt) = List.range cands.length := by
  have hfb := fallback_run cands opts hne hsig
  rw [hfb, finishChain_snd] at hgood
  obtain ⟨tr, heq, hlen⟩ := runChain_all_continuable opts cands 0 [] false hgood
  refine ⟨tr, ?_, hlen, by simp [hlen], ?_⟩
  · rw [hfb, heq]
    simp [finishChain]
  · have horder := (runChain_trace_attempts opts cands 0 [] false).1
    rw [heq] at horder
    simp only at horder
    rw [horder, hlen, List.range_eq_range']

theorem fallback_exhaustion_aggregate_witness :
    ∃ tr, fallback [Candidate.fn ⟨0, .resolves (0 : Nat)⟩, Candidate.fn ⟨0, .resolves 2⟩]
        ⟨none, .undef, some (fun v _ => v == 9), none⟩ =
        (.aggregate (mkFallbackError
          ("All " ++ toString 2 ++ " fallback candidates failed")
          (tr.map attemptRecordedError)), tr) ∧
      tr.length = 2 ∧ (tr.map attemptRecordedError).length = 2 ∧
      tr.map (·.attempt) = List.range 2 :=
  fallback_exhaustion_aggregate
    [Candidate.fn ⟨0, .resolves 0⟩, Candidate.fn ⟨0, .resolves 2⟩]
    ⟨none, .undef, some (fun v _ => v == 9), none⟩
    (by simp) rfl
    (by
      intro info hinfo
      have htr : (fallback [Candidate.fn ⟨0, .resolves (0 : Nat)⟩, Candidate.fn ⟨0, .resolves 2⟩]
          ⟨none, .undef, some (fun v _ => v == 9), none⟩).2 =
          [⟨0, none, .unacceptable, 0, some 0, none⟩,
           ⟨1, none, .unacceptable, 0, some 2, none⟩] := rfl
      rw [htr] at hinfo
      rcases List.mem_cons.mp hinfo with h | h
      · subst h; exact Or.inl rfl
      · rcases List.mem_cons.mp h with h' | h'
        · subst h'; exact Or.inl rfl
        · cases h')

/-- Claim C3 counterexample: with `timeoutMs = 1`, a slow first candidate and
a caller-supplied retryable predicate that rejects every error, the first
attempt is classified `timeout` and the chain terminates at once with the
`TimeoutError`: the retryable predicate is consulted on a timeout error and
does terminate the chain — the second candidate never runs (single-record
trace), refuting "the retryable predicate is skipped for timeout errors and
can never terminate the chain on a timeout". -/
theorem timeout_can_terminate_chain :
    fallback [Candidate.fn ⟨5, .resolves (0 : Nat)⟩, Candidate.fn ⟨0, .resolves 1⟩]
      ⟨none, .fixed (.num 1), none, some fun _ _ => false⟩ =
      (.err (.timeout 1), [⟨0, none, .timeout, 1, none, some (.timeout 1)⟩]) := by
  rfl

/-- Claim C3 amended: an attempt whose settled error is a timer-produced
`TimeoutError` is always classified `timeout` (in particular never `aborted`,
even when the external token has also fired), and the default retryable
predicate accepts every `TimeoutError`, so under the default the chain always
continues — but the caller-supplied retryable predicate IS consulted for
timeout errors: the loop continues to the next candidate when it accepts the
error and terminates with the `TimeoutError` when it rejects it. -/
theorem timeout_outcome_consults_retryable {T : Type} (opts : FallbackOptions T)
    (c : Candidate T) (rest : List (Candidate T)) (i : Nat)
    (errs : List (JsErr T)) (fired : Bool) (m : Int)
    (hs : (raceOf opts c i).settled = .rejects (.timeout m)) :
    classify (JsErr.timeout (T := T) m) (attemptCtrlAborted opts c i fired) = .timeout ∧
    defaultRetryable (JsErr.timeout (T := T) m) i = true ∧
    (effRetryable opts (.timeout m) i = true →
      runChain opts (c :: rest) i errs fired =
        ((runChain opts rest (i + 1) (errs ++ [JsErr.timeout m])
            (nextFired opts i fired)).1,
          errInfo opts c i fired (.timeout m) ::
            (runChain opts rest (i + 1) (errs ++ [JsErr.timeout m])
              (nextFired opts i fired)).2)) ∧
    (effRetryable opts (.timeout m) i = false →
      runChain opts (c :: rest) i errs fired =
        (.thrown (.timeout m), [errInfo opts c i fired (.timeout m)])) := by
  have hcl : classify (JsErr.timeout (T := T) m)
      (attemptCtrlAborted opts c i fired) = .timeout := rfl
  refine ⟨hcl, rfl, ?_, ?_⟩
  · intro hr
    exact runChain_cons_retry opts c rest i errs fired hs (by rw [hcl]; simp) hr
  · intro hr
    exact runChain_cons_nonretryable opts c rest i errs fired hs (by rw [hcl]; simp) hr

theorem timeout_outcome_consults_retryable_witness :
    runChain ⟨none, .fixed (.num 1), none, some fun _ _ => false⟩
      [Candidate.fn ⟨5, .resolves (0 : Nat)⟩, Candidate.fn ⟨0, .resolves 1⟩] 0 [] false =
      (.thrown (.timeout 1),
        [errInfo ⟨none, .fixed (.num 1), none, some fun _ _ => false⟩
          (Candidate.fn ⟨5, .resolves (0 : Nat)⟩) 0 false (.timeout 1)]) :=
  (timeout_outcome_consults_retryable
    ⟨none, .fixed (.num 1), none, some fun _ _ => false⟩
    (Candidate.fn ⟨5, .resolves 0⟩) [Candidate.fn ⟨0, .resolves 1⟩]
    0 [] false 1 rfl).2.2.2 rfl

/-- A concrete option record for the non-retryable scenario of the package's
own test suite: errors marked with payload 7 (the `NO_FALLBACK` marker) are
not retryable. -/
def noRetrySevenOpts : FallbackOptions Nat :=
  ⟨none, .undef, none, some fun e _ => !(e == JsErr.thrown "Error" 7)⟩

/-- Claim C4: an attempt that settles with a non-timeout, non-cancellation
error (not a `TimeoutError` instance, not abort-like, external token quiet)
for which the retryable predicate returns false terminates the loop
immediately, throwing exactly that error value; `finishChain` hands the thrown
error to the caller unmodified (never wrapped in an aggregate); and the
default retryable predicate returns true for every error except those
recognized as cancellation signals. -/
theorem nonretryable_error_propagates {T : Type} (opts : FallbackOptions T)
    (c : Candidate T) (rest : List (Candidate T)) (i : Nat)
    (errs : List (JsErr T)) (fired : Bool) (e : JsErr T)
    (hs : (raceOf opts c i).settled = .rejects e)
    (ht : e.isTimeoutInstance = false)
    (hab : isAbortLike e = false)
    (hext : extAbortedAt opts i fired = false)
    (hr : effRetryable opts e i = false) :
    runChain opts (c :: rest) i errs fired =
      (.thrown e, [errInfo opts c i fired e]) ∧
    (∀ (n : Nat) (tr' : List (AttemptInfo T)),
      finishChain n (.thrown e, tr') = (.err e, tr')) ∧
    (∀ (e' : JsErr T) (k : Nat), defaultRetryable e' k = !isAbortLike e') := by
  have htf : (raceOf opts c i).timerFired = false :=
    race_rejects_nontimeout_timerFired (effBehavior c) (armedTimeout opts i) e hs ht
  have hctrl : attemptCtrlAborted opts c i fired = false := by
    unfold attemptCtrlAborted
    rw [htf, hext]
    rfl
  have hcl : classify e (attemptCtrlAborted opts c i fired) = .rejected := by
    unfold classify
    rw [hctrl, ht, hab]
    simp
  refine ⟨?_, fun n tr' => rfl, fun e' k => rfl⟩
  exact runChain_cons_nonretryable opts c rest i errs fired hs (by rw [hcl]; simp) hr

theorem nonretryable_error_propagates_witness :
    runChain noRetrySevenOpts
      [Candidate.fn ⟨0, .rejects (.thrown "Error" (7 : Int))⟩,
       Candidate.fn ⟨0, .resolves (1 : Nat)⟩] 0 [] false =
      (.thrown (.thrown "Error" 7),
        [errInfo noRetrySevenOpts
          (Candidate.fn ⟨0, .rejects (.thrown "Error" 7)⟩) 0 false
          (.thrown "Error" 7)]) :=
  (nonretryable_error_propagates noRetrySevenOpts
    (Candidate.fn ⟨0, .rejects (.thrown "Error" 7)⟩)
    [Candidate.fn ⟨0, .resolves 1⟩] 0 [] false
    (.thrown "Error" 7) rfl rfl rfl rfl (by decide)).1

/-- Claim C5: when the external cancellation token is already aborted before
the first attempt starts, `fallback` fails immediately with the cancellation
reason (`signal.reason`, or a synthetic abort error when the reason is
nullish): the trace is empty — no candidate is ever invoked — and the thrown
error is the reason itself, not wrapped in an aggregate failure. -/
theorem preaborted_signal_fails_immediately {T : Type} (cands : List (Candidate T))
    (opts : FallbackOptions T) (s : AbortSignalModel T)
    (hne : cands ≠ []) (hsig : opts.signal = some s) (hab : s.aborted0 = true) :
    fallback cands opts = (.err (s.reason.getD (.thrown "AbortError" 0)), []) := by
  have h1 : cands.isEmpty = false := by simp [List.isEmpty_iff, hne]
  have h2 : signalPreAborted opts = true := by
    simp [signalPreAborted, hsig, hab]
  simp only [fallback, h1, h2, Bool.false_eq_true, if_false, if_true,
    preAbortReason, hsig]

theorem preaborted_signal_fails_immediately_witness :
    fallback [Candidate.fn ⟨0, .resolves (7 : Nat)⟩]
      ⟨some ⟨true, some (.thrown "AbortError" 3), fun _ => false⟩, .undef, none, none⟩ =
      (.err ((some (JsErr.thrown "AbortError" (3 : Int))).getD (.thrown "AbortError" 0)), []) :=
  preaborted_signal_fails_immediately [Candidate.fn ⟨0, .resolves 7⟩]
    ⟨some ⟨true, some (.thrown "AbortError" 3), fun _ => false⟩, .undef, none, none⟩
    ⟨true, some (.thrown "AbortError" 3), fun _ => false⟩
    (by simp) rfl rfl

/-- Claim C6 counterexample: with `timeoutMs = 1`, a slow first candidate and
a rejecting second candidate, the aggregate failure's error sequence holds the
`TimeoutError` contributed by attempt 0, whose classified outcome is `timeout`
— refuting "the error sequence grows only for attempts classified `rejected`
or `unacceptable`". -/
theorem error_list_grows_on_timeout_attempt :
    fallback [Candidate.fn ⟨5, .resolves (0 : Nat)⟩,
        Candidate.fn ⟨0, .rejects (.thrown "E" 1)⟩]
      ⟨none, .fixed (.num 1), none, none⟩ =
      (.aggregate ⟨"All 2 fallback candidates failed",
          [.timeout 1, .thrown "E" 1], some (.thrown "E" 1)⟩,
        [⟨0, none, .timeout, 1, none, some (.timeout 1)⟩,
         ⟨1, none, .rejected, 0, none, some (.thrown "E" 1)⟩]) := by
  rfl

/-- Claim C6 amended: an attempt is classified `aborted` only when its settled
error is abort-like or its cancellation context was triggered by the external
token — never by the per-attempt timer (the timer's firing forces a
`TimeoutError`, classified `timeout`); every `aborted` outcome terminates the
invocation immediately, propagating that error with nothing appended; and the
error sequence is append-only, growing exactly by the recorded error of each
attempt classified `rejected`, `unacceptable` — or `timeout`, which the
original claim wrongly excluded. -/
theorem aborted_terminates_error_log_append_only {T : Type}
    (opts : FallbackOptions T) (c : Candidate T) (rest : List (Candidate T))
    (i : Nat) (errs : List (JsErr T)) (fired : Bool) (e : JsErr T)
    (hs : (raceOf opts c i).settled = .rejects e)
    (hc : classify e (attemptCtrlAborted opts c i fired) = .aborted) :
    runChain opts (c :: rest) i errs fired =
      (.thrown e, [errInfo opts c i fired e]) ∧
    (raceOf opts c i).timerFired = false ∧
    (isAbortLike e = true ∨ extAbortedAt opts i fired = true) ∧
    (∀ (l : List (Candidate T)) (j : Nat) (errs0 : List (JsErr T)) (fired0 : Bool)
        (E : List (JsErr T)) (tr : List (AttemptInfo T)),
      runChain opts l j errs0 fired0 = (.exhausted E, tr) →
      E = errs0 ++ tr.map attemptRecordedError ∧
        ∀ info ∈ tr, info.outcome = .unacceptable ∨ info.outcome = .rejected ∨
          info.outcome = .timeout) := by
  obtain ⟨ht, habort⟩ := classify_aborted_inv e (attemptCtrlAborted opts c i fired) hc
  have htf : (raceOf opts c i).timerFired = false :=
    race_rejects_nontimeout_timerFired (effBehavior c) (armedTimeout opts i) e hs ht
  refine ⟨runChain_cons_aborted opts c rest i errs fired hs hc, htf, ?_, ?_⟩
  · rcases Bool.or_eq_true_iff.mp habort with h | h
    · exact Or.inl h
    · unfold attemptCtrlAborted at h
      rw [htf] at h
      rcases Bool.or_eq_true_iff.mp h with h' | h'
      · cases h'
      · exact Or.inr h'
  · intro l j errs0 fired0 E tr h
    obtain ⟨h1, _, h3⟩ := runChain_exhausted_inv opts l j errs0 fired0 E tr h
    exact ⟨h1, h3⟩

theorem aborted_terminates_error_log_append_only_witness :
    runChain (defaultOptions (T := Nat))
      [Candidate.fn ⟨0, .rejects (.thrown "AbortError" 2)⟩,
       Candidate.fn ⟨0, .resolves 1⟩] 0 [] false =
      (.thrown (.thrown "AbortError" 2),
        [errInfo defaultOptions (Candidate.fn ⟨0, .rejects (.thrown "AbortError" 2)⟩)
          0 false (.thrown "AbortError" 2)]) :=
  (aborted_terminates_error_log_append_only defaultOptions
    (Candidate.fn ⟨0, .rejects (.thrown "AbortError" 2)⟩)
    [Candidate.fn ⟨0, .resolves 1⟩] 0 [] false
    (.thrown "AbortError" 2) rfl rfl).1

/-- Claim C7 counterexample: a candidates list whose first element has invalid
shape (an object that is not a function and has no `run` field) does not fail
with an argument error at the call boundary: the invocation returns the second
candidate's value, and the invalid element surfaced as a `TypeError` at attempt
time that was classified `rejected` and retried — refuting "malformed input
fails before any attempt and is never retried". -/
theorem invalid_candidate_is_retried :
    fallback [Candidate.obj none none, Candidate.fn ⟨0, .resolves (7 : Nat)⟩]
      defaultOptions =
      (.ok 7, [⟨0, none, .rejected, 0, none, some (.thrown "TypeError" 0)⟩,
               ⟨1, none, .success, 0, some 7, none⟩]) := by
  rfl

/-- A race with a zero-duration candidate and a (necessarily non-negative)
armed timer is always won by the candidate. -/
theorem raceAttempt_zero_duration {T : Type} (b : CandBehavior T) (a : Option Int)
    (hd : b.duration = 0) (h0 : ∀ n, a = some n → 0 ≤ n) :
    raceAttempt b a = ⟨b.result, 0, false⟩ := by
  cases a with
  | none => simp [raceAttempt, hd]
  | some n =>
    have hn := h0 n rfl
    have hlt : ¬ (n < (b.duration : Int)) := by
      rw [hd]
      simp only [Nat.cast_zero]
      omega
    simp only [raceAttempt, if_neg hlt, RaceOutcome.mk.injEq]
    exact ⟨trivial, hd, trivial⟩

/-- The race of an invalid-shaped candidate: its attempt throws the synchronous
`TypeError` before any timer can fire. -/
theorem raceOf_invalid_candidate {T : Type} (opts : FallbackOptions T)
    (nm : Option String) (i : Nat) :
    (raceOf opts (Candidate.obj nm none) i).settled =
      .rejects (.thrown "TypeError" 0) ∧
    (raceOf opts (Candidate.obj nm none) i).timerFired = false := by
  have hbeh : effBehavior (Candidate.obj (T := T) nm none) =
      ⟨0, .rejects (.thrown "TypeError" 0)⟩ := by
    cases nm <;> rfl
  unfold raceOf
  rw [hbeh, raceAttempt_zero_duration
    (⟨0, .rejects (.thrown "TypeError" 0)⟩ : CandBehavior T) (armedTimeout opts i) rfl
    (fun n hn => armedFromNumber_nonneg (getTimeoutMs opts.timeoutMs i) n hn)]
  exact ⟨rfl, rfl⟩

/-- Claim C7 amended: the call boundary validates only the candidates argument
itself — an empty list fails with the argument `TypeError` before any attempt
— while an element of invalid shape (not a function, no `run` field) is not
detected at the boundary: its attempt throws a synchronous `TypeError` that is
classified `rejected` and treated as an ordinary candidate failure, retried
whenever the retryable predicate (such as the default) accepts it. -/
theorem invalid_candidate_fails_at_attempt_time {T : Type}
    (opts : FallbackOptions T) (nm : Option String) (rest : List (Candidate T))
    (i : Nat) (errs : List (JsErr T)) (fired : Bool)
    (hext : extAbortedAt opts i fired = false)
    (hr : effRetryable opts (.thrown "TypeError" 0) i = true) :
    fallback ([] : List (Candidate T)) opts =
      (.argError "fallback(candidates): candidates must be a non-empty array", []) ∧
    (raceOf opts (Candidate.obj nm none) i).settled =
      .rejects (.thrown "TypeError" 0) ∧
    runChain opts (Candidate.obj nm none :: rest) i errs fired =
      ((runChain opts rest (i + 1) (errs ++ [JsErr.thrown "TypeError" 0])
          (nextFired opts i fired)).1,
        errInfo opts (Candidate.obj nm none) i fired (.thrown "TypeError" 0) ::
          (runChain opts rest (i + 1) (errs ++ [JsErr.thrown "TypeError" 0])
            (nextFired opts i fired)).2) := by
  obtain ⟨hs, htf⟩ := raceOf_invalid_candidate opts nm i
  have hctrl : attemptCtrlAborted opts (Candidate.obj nm none) i fired = false := by
    unfold attemptCtrlAborted
    rw [htf, hext]
    rfl
  have hcl : classify (JsErr.thrown (T := T) "TypeError" 0)
      (attemptCtrlAborted opts (Candidate.obj nm none) i fired) = .rejected := by
    rw [hctrl]
    rfl
  refine ⟨rfl, hs, ?_⟩
  exact runChain_cons_retry opts (Candidate.obj nm none) rest i errs fired hs
    (by rw [hcl]; simp) hr

theorem invalid_candidate_fails_at_attempt_time_witness :
    runChain (defaultOptions (T := Nat))
      [Candidate.obj none none, Candidate.fn ⟨0, .resolves 7⟩] 0 [] false =
      ((runChain (defaultOptions (T := Nat)) [Candidate.fn ⟨0, .resolves 7⟩] 1
          ([] ++ [JsErr.thrown "TypeError" 0])
          (nextFired (defaultOptions (T := Nat)) 0 false)).1,
        errInfo (defaultOptions (T := Nat)) (Candidate.obj none none) 0 false
          (.thrown "TypeError" 0) ::
          (runChain (defaultOptions (T := Nat)) [Candidate.fn ⟨0, .resolves 7⟩] 1
            ([] ++ [JsErr.thrown "TypeError" 0])
            (nextFired (defaultOptions (T := Nat)) 0 false)).2) :=
  (invalid_candidate_fails_at_attempt_time (defaultOptions (T := Nat)) none
    [Candidate.fn ⟨0, .resolves 7⟩] 0 [] false rfl rfl).2.2

/-- Claim C8: the effective timeout of each attempt is resolved from
`options.timeoutMs` — a fixed number, or a function receiving the attempt
index — and the timer is armed only for a finite non-negative number:
`undefined`, NaN, ±Infinity and negative numbers disable the timeout for the
attempt; when armed with delay `n` and the candidate takes longer, the race
settles with a timeout-kind error carrying exactly the exceeded duration `n`,
and marks the attempt's cancellation context aborted by the timer. -/
theorem timeout_resolution_and_race {T : Type} :
    (∀ (n : JsNumber) (i : Nat), getTimeoutMs (.fixed n) i = some n) ∧
    (∀ (f : Nat → Option JsNumber) (i : Nat), getTimeoutMs (.func f) i = f i) ∧
    (∀ i : Nat, getTimeoutMs .undef i = none) ∧
    armedFromNumber none = none ∧
    armedFromNumber (some .nan) = none ∧
    armedFromNumber (some .infinity) = none ∧
    armedFromNumber (some .negInfinity) = none ∧
    (∀ n : Int, n < 0 → armedFromNumber (some (.num n)) = none) ∧
    (∀ n : Int, 0 ≤ n → armedFromNumber (some (.num n)) = some n) ∧
    (∀ (opts : FallbackOptions T) (i : Nat),
      armedTimeout opts i = armedFromNumber (getTimeoutMs opts.timeoutMs i)) ∧
    (∀ (b : CandBehavior T) (n : Int), n < (b.duration : Int) →
      raceAttempt b (some n) = ⟨.rejects (.timeout n), n.toNat, true⟩) := by
  refine ⟨fun n i => rfl, fun f i => rfl, fun i => rfl, rfl, rfl, rfl, rfl,
    ?_, ?_, fun opts i => rfl, ?_⟩
  · intro n hn
    simp [armedFromNumber]
    omega
  · intro n hn
    simp [armedFromNumber, hn]
  · intro b n hn
    simp [raceAttempt, hn]

theorem timeout_resolution_and_race_witness :
    raceAttempt (⟨5, .resolves (0 : Nat)⟩ : CandBehavior Nat) (some 1) =
      ⟨.rejects (.timeout 1), (1 : Int).toNat, true⟩ :=
  (timeout_resolution_and_race (T := Nat)).2.2.2.2.2.2.2.2.2.2
    ⟨5, .resolves 0⟩ 1 (by decide)

/-- Claim C9: for every invocation, the `onAttempt` records (the trace the
model returns, the hook being a pure observer that cannot alter the loop's
control flow) are produced exactly once per executed attempt, after the
outcome is classified (each record carries the attempt index, candidate name,
classified outcome, duration and value/error), in attempt order `0, 1, ...`,
and never for more attempts than there are candidates. -/
theorem onAttempt_once_per_attempt_in_order {T : Type}
    (cands : List (Candidate T)) (opts : FallbackOptions T) :
    ((fallback cands opts).2).map (·.attempt) =
      List.range ((fallback cands opts).2).length ∧
    ((fallback cands opts).2).length ≤ cands.length := by
  by_cases h1 : cands.isEmpty
  · simp [fallback, h1]
  · by_cases h2 : signalPreAborted opts
    · simp [fallback, h1, h2]
    · rw [fallback_run cands opts (by simpa [List.isEmpty_iff] using h1)
        (Bool.not_eq_true _ ▸ h2), finishChain_snd]
      have := runChain_trace_attempts opts cands 0 [] false
      rw [List.range_eq_range']
      exact this

/-- Claim C10: whenever `fallback` throws a `FallbackError`, the error's
`cause` field equals the last element of its ordered `errors` sequence — the
error recorded by the final attempted candidate. -/
theorem fallback_error_cause_is_last {T : Type} (cands : List (Candidate T))
    (opts : FallbackOptions T) (fe : FallbackError T) (tr : List (AttemptInfo T))
    (h : fallback cands opts = (.aggregate fe, tr)) :
    fe.cause = fe.errors.getLast? ∧
    fe.cause = (tr.getLast?).map attemptRecordedError := by
  by_cases h1 : cands.isEmpty
  · simp [fallback, h1] at h
  · by_cases h2 : signalPreAborted opts
    · simp [fallback, h1, h2] at h
    · rw [fallback_run cands opts (by simpa [List.isEmpty_iff] using h1)
        (Bool.not_eq_true _ ▸ h2)] at h
      rcases hrc : runChain opts cands 0 [] false with ⟨endR, tr'⟩
      rw [hrc] at h
      cases endR with
      | success v => exact absurd (congrArg Prod.fst h) (by simp [finishChain])
      | thrown e => exact absurd (congrArg Prod.fst h) (by simp [finishChain])
      | exhausted E =>
        simp only [finishChain, Prod.mk.injEq, FallbackResult.aggregate.injEq] at h
        obtain ⟨hfe, htr⟩ := h
        obtain ⟨hE, -, -⟩ := runChain_exhausted_inv opts cands 0 [] false E tr' hrc
        rw [List.nil_append] at hE
        refine ⟨?_, ?_⟩
        · rw [← hfe]
          rfl
        · rw [← hfe, ← htr]
          simp only [mkFallbackError, hE]
          exact List.getLast?_map _ _

theorem fallback_error_cause_is_last_witness :
    (mkFallbackError "All 2 fallback candidates failed"
        [JsErr.thrown "A" (1 : Int), JsErr.thrown "B" 2] :
        FallbackError Nat).cause =
      (mkFallbackError "All 2 fallback candidates failed"
        [JsErr.thrown "A" (1 : Int), JsErr.thrown "B" 2] :
        FallbackError Nat).errors.getLast? ∧
    (mkFallbackError "All 2 fallback candidates failed"
        [JsErr.thrown "A" (1 : Int), JsErr.thrown "B" 2] :
        FallbackError Nat).cause =
      (([⟨0, none, .rejected, 0, none, some (.thrown "A" 1)⟩,
         ⟨1, none, .rejected, 0, none, some (.thrown "B" 2)⟩] :
        List (AttemptInfo Nat)).getLast?).map attemptRecordedError :=
  fallback_error_cause_is_last
    [Candidate.fn ⟨0, .rejects (.thrown "A" 1)⟩, Candidate.fn ⟨0, .rejects (.thrown "B" 2)⟩]
    defaultOptions
    (mkFallbackError "All 2 fallback candidates failed"
      [JsErr.thrown "A" 1, JsErr.thrown "B" 2])
    [⟨0, none, .rejected, 0, none, some (.thrown "A" 1)⟩,
     ⟨1, none, .rejected, 0, none, some (.thrown "B" 2)⟩]
    rfl

end Claims

end FallbackChain
